import Mathlib

/-!
Verification of the ser2net per-port data-transfer engine (port.h).

The repository surface under verification is `src/port.h`: the state
constants, the `net_info` (connection slot) and `port_info` structures, and
the declared operations (`handle_new_net`, `shutdown_port`, `reset_timer`,
`remaddr_check`, ...).  The C implementation files (dataxfer.c, port.c,
portconfig.c) are not part of the given sources, so the operational
behaviour is modelled from the specification, while every data-layout fact
(which fields exist and where they live) is taken from `port.h`.
-/

namespace Ser2net

/-! ### Transfer-state constants, from src/port.h lines 44-53 -/

/-- PORT_NOT_STARTED: the dataxfer_start_port failed (port.h line 44). -/
def PORT_NOT_STARTED : Nat := 0

/-- PORT_CLOSED: the accepter is disabled (port.h line 45). -/
def PORT_CLOSED : Nat := 1

/-- PORT_UNCONNECTED: the TCP port is not connected to anything right now
(port.h line 46). -/
def PORT_UNCONNECTED : Nat := 2

/-- PORT_WAITING_INPUT: waiting for input from the input side
(port.h line 48). -/
def PORT_WAITING_INPUT : Nat := 3

/-- PORT_WAITING_OUTPUT_CLEAR: waiting for output to clear so I can send
data (port.h line 50). -/
def PORT_WAITING_OUTPUT_CLEAR : Nat := 4

/-- PORT_CLOSING: waiting for output close string to be sent
(port.h line 52). -/
def PORT_CLOSING : Nat := 5

/-! ### One transfer direction with fan-out destination slots

Modelled from the spec: the transfer state machine of one direction
(spec sections 4.2 and 8) together with the per-slot `write_pos` cursor of
`net_info` (port.h lines 95-97).  The implementation file dataxfer.c is not
in the sources; events are the read-completion and write-ready callbacks
the spec describes. -/

/-- The per-destination-slot transfer data: the `write_pos` cursor of
`net_info` (port.h lines 95-97) and the stream of bytes delivered to this
destination over the connection lifetime. -/
structure NetSlot where
  write_pos : Nat
  delivered : List Nat
  deriving DecidableEq

/-- One direction of a port: its transfer state (a PORT_* code), the
direction buffer (`struct gbuf`, filled length is `buf.length`), the
destination slots, the stream of bytes accepted from the source over the
lifetime, and whether the source is currently enabled for reads. -/
structure DirState where
  state : Nat
  buf : List Nat
  slots : List NetSlot
  accepted : List Nat
  readEnabled : Bool
  deriving DecidableEq

/-- Events that drive one direction: a read completion delivering bytes
from the source, or destination slot `i` becoming ready to accept up to
`room` more bytes (a possibly partial write completes there). -/
inductive DirEvent where
  | readComplete (data : List Nat)
  | writeReady (i : Nat) (room : Nat)
  deriving DecidableEq

/-- Modelled from the spec: a single (possibly partial) write to one slot.
The slot accepts `min room (buf.length - write_pos)` bytes; `write_pos`
advances by exactly the accepted amount and the accepted bytes are
appended, in order, to the slot's delivered stream (spec section 4.2,
"Partial writes"). -/
def slotWrite (buf : List Nat) (room : Nat) (sl : NetSlot) : NetSlot :=
  let a := min room (buf.length - sl.write_pos)
  { write_pos := sl.write_pos + a
    delivered := sl.delivered ++ (buf.drop sl.write_pos).take a }

/-- Decidable test that every slot has drained the direction buffer. -/
def allDrained (buf : List Nat) (slots : List NetSlot) : Bool :=
  slots.all fun sl => buf.length ≤ sl.write_pos

/-- Apply the (possibly partial) write to the slot at index `i`, leaving
the other slots untouched. -/
def writeAt (buf : List Nat) (room : Nat) : Nat → List NetSlot → List NetSlot
  | _, [] => []
  | 0, sl :: rest => slotWrite buf room sl :: rest
  | j + 1, sl :: rest => sl :: writeAt buf room j rest

/-- Modelled from the spec: one step of a direction's transfer state
machine (spec section 4.2; dataxfer.c is not in the sources).  On read
completion in WAITING_INPUT the bytes are copied into the direction
buffer, every slot's cursor is reset, the source is paused and the state
moves to WAITING_OUTPUT_CLEAR.  On a write-ready in WAITING_OUTPUT_CLEAR
slot `i` performs a (possibly partial) write at its own `write_pos`; only
when all pending destinations have drained does the state return to
WAITING_INPUT, the buffer reset and the source read re-enabled. -/
def dirStep (s : DirState) (e : DirEvent) : DirState :=
  match e with
  | DirEvent.readComplete data =>
    if s.state = PORT_WAITING_INPUT ∧ s.readEnabled = true ∧ data ≠ [] then
      { state := PORT_WAITING_OUTPUT_CLEAR
        buf := data
        slots := s.slots.map fun sl => { sl with write_pos := 0 }
        accepted := s.accepted ++ data
        readEnabled := false }
    else s
  | DirEvent.writeReady i room =>
    if s.state = PORT_WAITING_OUTPUT_CLEAR then
      if allDrained s.buf (writeAt s.buf room i s.slots) then
        { state := PORT_WAITING_INPUT
          buf := []
          slots := (writeAt s.buf room i s.slots).map
            fun sl => { sl with write_pos := 0 }
          accepted := s.accepted
          readEnabled := true }
      else { s with slots := writeAt s.buf room i s.slots }
    else s

/-- Run a direction machine over a list of events. -/
def dirRun (s : DirState) (es : List DirEvent) : DirState :=
  es.foldl dirStep s

/-- The initial direction state: idle in WAITING_INPUT with `n` empty
destination slots and the source enabled. -/
def dirInit (n : Nat) : DirState :=
  { state := PORT_WAITING_INPUT
    buf := []
    slots := List.replicate n ⟨0, []⟩
    accepted := []
    readEnabled := true }

/-- The direction invariant: the machine is in WAITING_INPUT or
WAITING_OUTPUT_CLEAR; the source is read-enabled exactly in WAITING_INPUT;
in WAITING_INPUT the buffer is empty and all cursors reset; every slot's
cursor is within the filled length and its delivered stream followed by
its pending bytes is exactly the accepted stream. -/
def dirInv (s : DirState) : Prop :=
  (s.state = PORT_WAITING_INPUT ∨ s.state = PORT_WAITING_OUTPUT_CLEAR) ∧
  (s.readEnabled = true ↔ s.state = PORT_WAITING_INPUT) ∧
  (s.state = PORT_WAITING_INPUT → s.buf = [] ∧ ∀ sl ∈ s.slots, sl.write_pos = 0) ∧
  (∀ sl ∈ s.slots, sl.write_pos ≤ s.buf.length ∧
    sl.delivered ++ s.buf.drop sl.write_pos = s.accepted)

theorem dirInv_init (n : Nat) : dirInv (dirInit n) := by
  refine ⟨Or.inl rfl, by simp [dirInit], ?_, ?_⟩
  · intro _
    constructor
    · rfl
    · intro sl hsl
      simp only [dirInit, List.mem_replicate] at hsl
      rw [hsl.2]
  · intro sl hsl
    simp only [dirInit, List.mem_replicate] at hsl
    rw [hsl.2]
    simp [dirInit]

theorem mem_writeAt {buf : List Nat} {room : Nat} {i : Nat} {slots : List NetSlot}
    {sl : NetSlot} (h : sl ∈ writeAt buf room i slots) :
    sl ∈ slots ∨ ∃ sl0 ∈ slots, sl = slotWrite buf room sl0 := by
  induction slots generalizing i with
  | nil => simp [writeAt] at h
  | cons a rest ih =>
    cases i with
    | zero =>
      simp only [writeAt, List.mem_cons] at h
      rcases h with h | h
      · exact Or.inr ⟨a, List.mem_cons_self a rest, h⟩
      · exact Or.inl (List.mem_cons_of_mem _ h)
    | succ j =>
      simp only [writeAt, List.mem_cons] at h
      rcases h with h | h
      · exact Or.inl (h ▸ List.mem_cons_self a rest)
      · rcases ih h with h' | ⟨sl0, hm, he⟩
        · exact Or.inl (List.mem_cons_of_mem _ h')
        · exact Or.inr ⟨sl0, List.mem_cons_of_mem _ hm, he⟩

theorem writeAt_get? {buf : List Nat} {room : Nat} (i : Nat) (slots : List NetSlot) :
    (writeAt buf room i slots).get? i = (slots.get? i).map (slotWrite buf room) := by
  induction slots generalizing i with
  | nil => cases i <;> simp [writeAt]
  | cons a rest ih =>
    cases i with
    | zero => simp [writeAt]
    | succ j => simpa [writeAt] using ih j

theorem allDrained_eq_true {buf : List Nat} {slots : List NetSlot} :
    allDrained buf slots = true ↔ ∀ sl ∈ slots, buf.length ≤ sl.write_pos := by
  simp [allDrained]

/-- One (possibly partial) write preserves the per-slot bookkeeping: the
cursor stays within the filled length and no byte is dropped or duplicated
in the delivered stream. -/
theorem slotOk_write {buf accepted : List Nat} {room : Nat} {sl : NetSlot}
    (h1 : sl.write_pos ≤ buf.length)
    (h2 : sl.delivered ++ buf.drop sl.write_pos = accepted) :
    (slotWrite buf room sl).write_pos ≤ buf.length ∧
    (slotWrite buf room sl).delivered
      ++ buf.drop (slotWrite buf room sl).write_pos = accepted := by
  constructor
  · simp only [slotWrite]
    have := min_le_right room (buf.length - sl.write_pos)
    omega
  · simp only [slotWrite]
    rw [List.append_assoc, ← h2]
    congr 1
    rw [← List.drop_drop]
    exact List.take_append_drop _ _

theorem dirInv_step (s : DirState) (e : DirEvent) (h : dirInv s) :
    dirInv (dirStep s e) := by
  obtain ⟨h1, h2, h3, h4⟩ := h
  cases e with
  | readComplete data =>
    by_cases hg : s.state = PORT_WAITING_INPUT ∧ s.readEnabled = true ∧ data ≠ []
    · obtain ⟨hst, hre, hd⟩ := hg
      simp only [dirStep, if_pos (show s.state = PORT_WAITING_INPUT ∧
        s.readEnabled = true ∧ data ≠ [] from ⟨hst, hre, hd⟩)]
      refine ⟨Or.inr rfl, ?_, ?_, ?_⟩
      · constructor
        · intro hr
          exact absurd (show false = true from hr) (by decide)
        · intro hw
          exact absurd (show PORT_WAITING_OUTPUT_CLEAR = PORT_WAITING_INPUT from hw)
            (by decide)
      · intro hc
        exact absurd (show PORT_WAITING_OUTPUT_CLEAR = PORT_WAITING_INPUT from hc)
          (by decide)
      · intro sl hsl
        simp only [List.mem_map] at hsl
        obtain ⟨sl0, hm, rfl⟩ := hsl
        obtain ⟨hbuf, -⟩ := h3 hst
        have h40 := (h4 sl0 hm).2
        rw [hbuf] at h40
        simp only [List.drop_nil, List.append_nil] at h40
        constructor
        · exact Nat.zero_le _
        · simp [h40]
    · simp only [dirStep, if_neg hg]
      exact ⟨h1, h2, h3, h4⟩
  | writeReady i room =>
    by_cases hst : s.state = PORT_WAITING_OUTPUT_CLEAR
    · have hslots : ∀ sl ∈ writeAt s.buf room i s.slots,
          sl.write_pos ≤ s.buf.length ∧
          sl.delivered ++ s.buf.drop sl.write_pos = s.accepted := by
        intro sl hsl
        rcases mem_writeAt hsl with hm | ⟨sl0, hm, rfl⟩
        · exact h4 sl hm
        · exact slotOk_write (h4 sl0 hm).1 (h4 sl0 hm).2
      by_cases hdr : allDrained s.buf (writeAt s.buf room i s.slots) = true
      · simp only [dirStep, if_pos hst, if_pos hdr]
        refine ⟨Or.inl rfl, ?_, ?_, ?_⟩
        · constructor
          · intro _
            rfl
          · intro _
            rfl
        · intro _
          refine ⟨rfl, ?_⟩
          intro sl hsl
          simp only [List.mem_map] at hsl
          obtain ⟨sl0, -, rfl⟩ := hsl
          rfl
        · intro sl hsl
          simp only [List.mem_map] at hsl
          obtain ⟨sl0, hm, rfl⟩ := hsl
          have hd := (allDrained_eq_true.mp hdr) sl0 hm
          have hk := hslots sl0 hm
          have hnil : s.buf.drop sl0.write_pos = [] :=
            List.drop_eq_nil_of_le hd
          rw [hnil, List.append_nil] at hk
          simp [hk.2]
      · simp only [dirStep, if_pos hst, if_neg hdr]
        have hre : s.readEnabled = false := by
          cases hr : s.readEnabled
          · rfl
          · have hw := h2.mp hr
            rw [hst] at hw
            exact absurd hw (by decide)
        refine ⟨Or.inr hst, ?_, ?_, hslots⟩
        · constructor
          · intro hr
            have hr' : s.readEnabled = true := hr
            rw [hre] at hr'
            exact absurd hr' (by decide)
          · intro hw
            have hw' : s.state = PORT_WAITING_INPUT := hw
            rw [hst] at hw'
            exact absurd hw' (by decide)
        · intro hc
          have hc' : s.state = PORT_WAITING_INPUT := hc
          rw [hst] at hc'
          exact absurd hc' (by decide)
    · simp only [dirStep, if_neg hst]
      exact ⟨h1, h2, h3, h4⟩

theorem dirInv_run (s : DirState) (es : List DirEvent) (h : dirInv s) :
    dirInv (dirRun s es) := by
  induction es generalizing s with
  | nil => exact h
  | cons e rest ih => exact ih _ (dirInv_step s e h)

/-- C1: in one transfer direction, over any interleaving of
read-completion and (possibly partial) write-ready events, every slot's
delivered stream followed by its still-pending bytes equals, in order, the
stream accepted from the source (no byte dropped, duplicated or
reordered); whenever the machine is back in WAITING_INPUT every slot has
delivered exactly the accepted stream; the slot's `write_pos` never
exceeds the filled length of the direction buffer, and a single write
advances `write_pos` by exactly the accepted byte count. -/
theorem C1_no_byte_loss (n : Nat) (es : List DirEvent) :
    (∀ sl ∈ (dirRun (dirInit n) es).slots,
      sl.write_pos ≤ (dirRun (dirInit n) es).buf.length ∧
      sl.delivered ++ (dirRun (dirInit n) es).buf.drop sl.write_pos
        = (dirRun (dirInit n) es).accepted) ∧
    ((dirRun (dirInit n) es).state = PORT_WAITING_INPUT →
      ∀ sl ∈ (dirRun (dirInit n) es).slots,
        sl.delivered = (dirRun (dirInit n) es).accepted) ∧
    (∀ buf room sl, (slotWrite buf room sl).write_pos
        = sl.write_pos + min room (buf.length - sl.write_pos)) := by
  obtain ⟨h1, h2, h3, h4⟩ := dirInv_run (dirInit n) es (dirInv_init n)
  refine ⟨h4, ?_, fun _ _ _ => rfl⟩
  intro hst sl hsl
  obtain ⟨hbuf, -⟩ := h3 hst
  have hk := (h4 sl hsl).2
  rw [hbuf] at hk
  simpa using hk

/-- Witness for C1: after one read of `[7, 8]` on a one-slot direction,
the slot's delivered stream plus the pending buffer equals the accepted
stream. -/
theorem C1_no_byte_loss_witness :
    (⟨0, []⟩ : NetSlot).delivered ++
      (dirRun (dirInit 1) [DirEvent.readComplete [7, 8]]).buf.drop
        (⟨0, []⟩ : NetSlot).write_pos
      = (dirRun (dirInit 1) [DirEvent.readComplete [7, 8]]).accepted :=
  ((C1_no_byte_loss 1 [DirEvent.readComplete [7, 8]]).1 ⟨0, []⟩ (by decide)).2

/-- C2: in any reachable state of a direction machine, while the machine
is in WAITING_OUTPUT_CLEAR the source is read-disabled and a
read-completion event has no effect (no read is issued to the source);
the source read is re-enabled only when the state has returned to
WAITING_INPUT with every pending destination slot drained, so at most one
outstanding write exists per direction at any time. -/
theorem C2_backpressure (n : Nat) (es : List DirEvent) :
    ((dirRun (dirInit n) es).state = PORT_WAITING_OUTPUT_CLEAR →
      (dirRun (dirInit n) es).readEnabled = false ∧
      ∀ data, dirStep (dirRun (dirInit n) es) (DirEvent.readComplete data)
        = dirRun (dirInit n) es) ∧
    ((dirRun (dirInit n) es).readEnabled = true →
      (dirRun (dirInit n) es).state = PORT_WAITING_INPUT ∧
      ∀ sl ∈ (dirRun (dirInit n) es).slots,
        (dirRun (dirInit n) es).buf.length ≤ sl.write_pos) := by
  obtain ⟨h1, h2, h3, h4⟩ := dirInv_run (dirInit n) es (dirInv_init n)
  constructor
  · intro hst
    have hre : (dirRun (dirInit n) es).readEnabled = false := by
      cases hr : (dirRun (dirInit n) es).readEnabled
      · rfl
      · have := h2.mp hr
        rw [hst] at this
        exact absurd this (by decide)
    refine ⟨hre, ?_⟩
    intro data
    have hc : ¬((dirRun (dirInit n) es).state = PORT_WAITING_INPUT ∧
        (dirRun (dirInit n) es).readEnabled = true ∧ data ≠ []) := by
      rintro ⟨ha, -, -⟩
      rw [hst] at ha
      exact absurd ha (by decide)
    simp only [dirStep, if_neg hc]
  · intro hre
    have hst := h2.mp hre
    refine ⟨hst, ?_⟩
    intro sl hsl
    obtain ⟨hbuf, -⟩ := h3 hst
    rw [hbuf]
    exact Nat.zero_le _

/-- Witness for C2: after one read the machine is in WAITING_OUTPUT_CLEAR
and a second read-completion leaves the state unchanged. -/
theorem C2_backpressure_witness :
    dirStep (dirRun (dirInit 1) [DirEvent.readComplete [7]])
        (DirEvent.readComplete [9])
      = dirRun (dirInit 1) [DirEvent.readComplete [7]] :=
  (((C2_backpressure 1 [DirEvent.readComplete [7]]).1 (by decide)).2) [9]

/-! ### The two per-port transfer-state fields

Modelled from the spec: the event-driven transitions of section 4.2 for
the two state fields `net_to_dev_state` (port.h lines 245-247) and
`dev_to_net_state` (port.h lines 260-262); the handlers of dataxfer.c are
not in the sources.  The state codes are the PORT_* constants of
port.h lines 44-53. -/

/-- The event kinds of spec section 4.2 that drive one direction's state:
read completion, write (output drained) completion, connection or device
open, connection close, explicit shutdown request, and completion of the
final close-string write. -/
inductive DirEvKind where
  | readDone
  | writeDone
  | connOpen
  | connClosed
  | shutdownReq
  | closeSent
  deriving DecidableEq

/-- Modelled from the spec: one direction's state transition on an event
(spec section 4.2).  Reads move WAITING_INPUT to WAITING_OUTPUT_CLEAR,
drained output moves back, a connection open leaves UNCONNECTED, a close
or shutdown enters UNCONNECTED or CLOSING, and the final close-string
completion leaves CLOSING for UNCONNECTED (accepter enabled) or CLOSED. -/
def dirNext (enabled : Bool) (st : Nat) : DirEvKind → Nat
  | DirEvKind.readDone =>
    if st = PORT_WAITING_INPUT then PORT_WAITING_OUTPUT_CLEAR else st
  | DirEvKind.writeDone =>
    if st = PORT_WAITING_OUTPUT_CLEAR then PORT_WAITING_INPUT else st
  | DirEvKind.connOpen =>
    if st = PORT_UNCONNECTED then PORT_WAITING_INPUT else st
  | DirEvKind.connClosed =>
    if st = PORT_WAITING_INPUT ∨ st = PORT_WAITING_OUTPUT_CLEAR then
      PORT_UNCONNECTED else st
  | DirEvKind.shutdownReq =>
    if st = PORT_WAITING_INPUT ∨ st = PORT_WAITING_OUTPUT_CLEAR ∨
       st = PORT_UNCONNECTED then PORT_CLOSING else st
  | DirEvKind.closeSent =>
    if st = PORT_CLOSING then
      (if enabled then PORT_UNCONNECTED else PORT_CLOSED) else st

/-- The two per-direction transfer-state fields of `port_info` and the
accepter-enabled flag. -/
structure XferPort where
  enabled : Bool
  dev_to_net_state : Nat
  net_to_dev_state : Nat
  deriving DecidableEq

/-- A port-level event: an event kind on one of the two directions, or an
explicit shutdown request hitting both machines. -/
inductive PortEvent where
  | onDevToNet (k : DirEvKind)
  | onNetToDev (k : DirEvKind)
  | shutdownBoth
  deriving DecidableEq

/-- Modelled from the spec: one event-handler step of the port engine on
its two transfer-state fields. -/
def portStep (p : XferPort) (e : PortEvent) : XferPort :=
  match e with
  | PortEvent.onDevToNet k =>
    { p with dev_to_net_state := dirNext p.enabled p.dev_to_net_state k }
  | PortEvent.onNetToDev k =>
    { p with net_to_dev_state := dirNext p.enabled p.net_to_dev_state k }
  | PortEvent.shutdownBoth =>
    { p with
      dev_to_net_state :=
        dirNext p.enabled p.dev_to_net_state DirEvKind.shutdownReq
      net_to_dev_state :=
        dirNext p.enabled p.net_to_dev_state DirEvKind.shutdownReq }

/-- Run the port engine over a list of events. -/
def portRun (p : XferPort) (es : List PortEvent) : XferPort :=
  es.foldl portStep p

/-- The initial port state: both directions UNCONNECTED on successful
startup, NOT_STARTED when dataxfer_start_port failed. -/
def portInit (en startupOk : Bool) : XferPort :=
  { enabled := en
    dev_to_net_state :=
      if startupOk then PORT_UNCONNECTED else PORT_NOT_STARTED
    net_to_dev_state :=
      if startupOk then PORT_UNCONNECTED else PORT_NOT_STARTED }

/-- A transfer-state field holds one of exactly the six PORT_* codes of
port.h lines 44-53. -/
def stateValid (st : Nat) : Prop :=
  st = PORT_NOT_STARTED ∨ st = PORT_CLOSED ∨ st = PORT_UNCONNECTED ∨
  st = PORT_WAITING_INPUT ∨ st = PORT_WAITING_OUTPUT_CLEAR ∨
  st = PORT_CLOSING

instance (st : Nat) : Decidable (stateValid st) := by
  unfold stateValid
  infer_instance

theorem stateValid_dirNext (en : Bool) (st : Nat) (k : DirEvKind)
    (h : stateValid st) : stateValid (dirNext en st k) := by
  rcases h with rfl | rfl | rfl | rfl | rfl | rfl <;>
    cases k <;> cases en <;> decide

theorem stateValid_portStep (p : XferPort) (e : PortEvent)
    (h : stateValid p.dev_to_net_state ∧ stateValid p.net_to_dev_state) :
    stateValid (portStep p e).dev_to_net_state ∧
    stateValid (portStep p e).net_to_dev_state := by
  cases e with
  | onDevToNet k =>
    simp only [portStep]
    exact ⟨stateValid_dirNext p.enabled p.dev_to_net_state k h.1, h.2⟩
  | onNetToDev k =>
    simp only [portStep]
    exact ⟨h.1, stateValid_dirNext p.enabled p.net_to_dev_state k h.2⟩
  | shutdownBoth =>
    simp only [portStep]
    exact ⟨stateValid_dirNext p.enabled p.dev_to_net_state DirEvKind.shutdownReq h.1,
      stateValid_dirNext p.enabled p.net_to_dev_state DirEvKind.shutdownReq h.2⟩

/-- C9: after every event-handler step from any startup outcome, each of
the two direction states `net_to_dev_state` and `dev_to_net_state` holds
one of exactly the six values NOT_STARTED, CLOSED, UNCONNECTED,
WAITING_INPUT, WAITING_OUTPUT_CLEAR, CLOSING. -/
theorem C9_state_range (en startupOk : Bool) (es : List PortEvent) :
    stateValid (portRun (portInit en startupOk) es).dev_to_net_state ∧
    stateValid (portRun (portInit en startupOk) es).net_to_dev_state := by
  have hrun : ∀ (p : XferPort) (l : List PortEvent),
      stateValid p.dev_to_net_state ∧ stateValid p.net_to_dev_state →
      stateValid (portRun p l).dev_to_net_state ∧
      stateValid (portRun p l).net_to_dev_state := by
    intro p l
    induction l generalizing p with
    | nil => exact fun h => h
    | cons e rest ih => exact fun h => ih _ (stateValid_portStep p e h)
  refine hrun _ es ?_
  cases startupOk <;> constructor <;> simp [portInit, stateValid]

/-! ### Shutdown idempotence

Modelled from the spec: `shutdown_port` (declared port.h line 415;
port.c is not in the sources) over the `shutdown_started` flag
(port.h lines 266-270) and the in-flight operation counter `free_count`
(port.h lines 147-148). -/

/-- The port fields shutdown acts on: the `shutdown_started` flag, the
`free_count` in-flight operation counter, and the two transfer states. -/
structure SdPort where
  shutdown_started : Bool
  free_count : Nat
  dev_to_net_state : Nat
  net_to_dev_state : Nat
  deriving DecidableEq

/-- Modelled from the spec: shutdown_port.  A port that is already
shutting down is left untouched; otherwise the flag is raised, both
machines enter CLOSING and the in-flight operation counter is decremented
once for the shutdown work. -/
def shutdown_port (p : SdPort) : SdPort :=
  if p.shutdown_started = true then p
  else
    { shutdown_started := true
      free_count := p.free_count - 1
      dev_to_net_state := PORT_CLOSING
      net_to_dev_state := PORT_CLOSING }

/-- C9 helper is above; C7: shutdown_port is idempotent.  A second
shutdown request on an already-shutting-down port leaves the state
unchanged, performs no additional action and does not decrement
`free_count` a second time. -/
theorem C7_shutdown_idempotent (p : SdPort) :
    (p.shutdown_started = true → shutdown_port p = p) ∧
    shutdown_port (shutdown_port p) = shutdown_port p ∧
    (shutdown_port (shutdown_port p)).free_count
      = (shutdown_port p).free_count := by
  have h2 : shutdown_port (shutdown_port p) = shutdown_port p := by
    by_cases h : p.shutdown_started = true <;> simp [shutdown_port, h]
  exact ⟨fun h => by simp [shutdown_port, h], h2,
    congrArg SdPort.free_count h2⟩

/-- Witness for C7 at a concrete already-shutting-down port. -/
theorem C7_shutdown_idempotent_witness :
    shutdown_port ⟨true, 5, PORT_CLOSING, PORT_CLOSING⟩
      = ⟨true, 5, PORT_CLOSING, PORT_CLOSING⟩ :=
  (C7_shutdown_idempotent ⟨true, 5, PORT_CLOSING, PORT_CLOSING⟩).1 rfl

/-! ### Connection admission and kick-old-user takeover

Modelled from the spec: `handle_new_net` (declared port.h line 387) and
the two-phase kick-old-user handoff of spec section 4.3; dataxfer.c is
not in the sources.  The slot fields are those of `net_info`: the
transport handle `net` (port.h line 71), the `closing` flag, the pending
replacement handle `new_net` (port.h lines 118-123) and the byte
counters; `kickolduser_mode` is port.h lines 297-298. -/

/-- A connection slot: the `net_info` fields that admission touches. -/
structure Conn where
  net : Option Nat
  closing : Bool
  new_net : Option Nat
  bytes_received : Nat
  bytes_sent : Nat
  deriving DecidableEq

/-- An empty, admission-ready connection slot. -/
def emptyConn : Conn := ⟨none, false, none, 0, 0⟩

/-- A freshly bound slot holding transport handle `h` with counters
starting at zero. -/
def freshConn (h : Nat) : Conn := ⟨some h, false, none, 0, 0⟩

/-- The port fields admission acts on: the slot pool sized to
`max_connections`, the kick-old-user flag and the two transfer states. -/
structure AdmPort where
  max_connections : Nat
  kickolduser_mode : Bool
  netcons : List Conn
  net_to_dev_state : Nat
  dev_to_net_state : Nat
  deriving DecidableEq

/-- The outcome of an admission attempt. -/
inductive AdmResult where
  | admitted (i : Nat)
  | kicked (i : Nat)
  | rejected
  deriving DecidableEq

/-- Index of the first slot with no transport handle, if any. -/
def firstFree : List Conn → Option Nat
  | [] => none
  | c :: rest =>
    if c.net.isNone then some 0 else (firstFree rest).map (· + 1)

/-- Modelled from the spec: handle_new_net (spec section 4.3).  `addrOk`
is the result of the remaddr_check allow-list test on the peer address
(remaddr_check is declared port.h lines 419-420; portconfig.c is not in
the sources).  A failed check rejects immediately; a free slot admits the
handle into it; with all slots occupied the new handle is stored as the
first slot's pending replacement `new_net` and that occupant's graceful
shutdown begins when kick-old-user is enabled, otherwise the connection
is rejected. -/
def handle_new_net (addrOk : Bool) (handle : Nat) (p : AdmPort) :
    AdmResult × AdmPort :=
  if addrOk = false then (AdmResult.rejected, p)
  else
    match firstFree p.netcons with
    | some i =>
      (AdmResult.admitted i,
        { p with netcons := p.netcons.set i (freshConn handle) })
    | none =>
      if p.kickolduser_mode = true then
        match p.netcons with
        | [] => (AdmResult.rejected, p)
        | c :: rest =>
          (AdmResult.kicked 0,
            { p with netcons :=
                { c with new_net := some handle, closing := true } :: rest })
      else (AdmResult.rejected, p)

/-- Modelled from the spec: completion of an evicted connection's
teardown.  The swap completes only now: the pending replacement handle is
bound into the slot and the slot's byte counters start fresh, so the new
peer is never merged into the half-closed slot's counters. -/
def teardownDone (i : Nat) (p : AdmPort) : AdmPort :=
  match p.netcons.get? i with
  | some c =>
    match c.new_net with
    | some h => { p with netcons := p.netcons.set i (freshConn h) }
    | none => { p with netcons := p.netcons.set i emptyConn }
  | none => p

theorem firstFree_eq_none {l : List Conn}
    (h : ∀ c ∈ l, c.net.isSome = true) : firstFree l = none := by
  induction l with
  | nil => rfl
  | cons c rest ih =>
    have hc := h c (List.mem_cons_self c rest)
    have hn : c.net.isNone = false := by
      cases hcn : c.net
      · rw [hcn] at hc
        exact absurd hc (by decide)
      · rfl
    simp only [firstFree, hn, if_neg]
    rw [ih fun c hm => h c (List.mem_cons_of_mem _ hm)]
    simp

/-- C3: with max_connections = N slots all occupied and no replacement
already pending, an arriving connection is admitted iff kick-old-user
mode is enabled; when it is, the new transport handle is stored as
exactly one slot's pending replacement `new_net`, that slot's occupant
keeps its handle but enters graceful shutdown (`closing`), and the new
handle is bound into the slot only by the evicted connection's
teardown completion. -/
theorem C3_kickolduser (h : Nat) (p : AdmPort)
    (hlen : p.netcons.length = p.max_connections)
    (hpos : 0 < p.max_connections)
    (hocc : ∀ c ∈ p.netcons, c.net.isSome = true)
    (hnone : ∀ c ∈ p.netcons, c.new_net = none) :
    ((handle_new_net true h p).1 ≠ AdmResult.rejected ↔
      p.kickolduser_mode = true) ∧
    (p.kickolduser_mode = true →
      ∃ c0 rest, p.netcons = c0 :: rest ∧
        (handle_new_net true h p).2.netcons
          = { c0 with new_net := some h, closing := true } :: rest ∧
        c0.net.isSome = true ∧
        ((handle_new_net true h p).2.netcons.countP
          fun c => decide (c.new_net = some h)) = 1 ∧
        (teardownDone 0 (handle_new_net true h p).2).netcons.get? 0
          = some (freshConn h)) := by
  obtain ⟨mx, ko, cs, ns, ds⟩ := p
  have hff : firstFree cs = none := firstFree_eq_none hocc
  cases cs with
  | nil =>
    simp at hlen hpos
    omega
  | cons c0 rest =>
    cases ko with
    | false =>
      constructor
      · simp [handle_new_net, hff]
      · intro hc
        exact absurd (show false = true from hc) (by decide)
    | true =>
      constructor
      · simp [handle_new_net, hff]
      · intro _
        refine ⟨c0, rest, rfl, ?_, ?_, ?_, ?_⟩
        · simp [handle_new_net, hff]
        · exact hocc c0 (List.mem_cons_self c0 rest)
        · have hres : ∀ c ∈ rest, c.new_net = none := by
            intro c hm
            exact hnone c (List.mem_cons_of_mem _ hm)
          have hzero : rest.countP (fun c => decide (c.new_net = some h)) = 0 := by
            rw [List.countP_eq_zero]
            intro c hm
            rw [hres c hm]
            simp
          simp [handle_new_net, hff, List.countP_cons, hzero]
        · simp [handle_new_net, hff, teardownDone]

/-- Witness for C3 at a concrete one-slot port in kick-old-user mode. -/
theorem C3_kickolduser_witness :
    (handle_new_net true 9
      ⟨1, true, [⟨some 4, false, none, 3, 7⟩], PORT_WAITING_INPUT,
        PORT_WAITING_INPUT⟩).1 ≠ AdmResult.rejected :=
  (C3_kickolduser 9
      ⟨1, true, [⟨some 4, false, none, 3, 7⟩], PORT_WAITING_INPUT,
        PORT_WAITING_INPUT⟩
      (by decide) (by decide) (by decide) (by decide)).1.mpr rfl

/-- C8: a rejected admission — allow-list failure, or all slots occupied
with kick-old-user disabled — returns the port completely unchanged:
every existing connection slot and both transfer state fields are as
before. -/
theorem C8_rejection_atomic (h : Nat) (p : AdmPort) :
    (handle_new_net false h p = (AdmResult.rejected, p)) ∧
    ((∀ c ∈ p.netcons, c.net.isSome = true) →
      p.kickolduser_mode = false →
      handle_new_net true h p = (AdmResult.rejected, p)) := by
  constructor
  · simp [handle_new_net]
  · intro hocc hk
    obtain ⟨mx, ko, cs, ns, ds⟩ := p
    have hff : firstFree cs = none := firstFree_eq_none hocc
    subst hk
    simp [handle_new_net, hff]

/-- Witness for C8: a concrete full port without kick-old-user rejects
with no state change. -/
theorem C8_rejection_atomic_witness :
    handle_new_net true 9
      ⟨1, false, [⟨some 4, false, none, 3, 7⟩], PORT_WAITING_INPUT,
        PORT_WAITING_OUTPUT_CLEAR⟩
      = (AdmResult.rejected,
        ⟨1, false, [⟨some 4, false, none, 3, 7⟩], PORT_WAITING_INPUT,
          PORT_WAITING_OUTPUT_CLEAR⟩) :=
  (C8_rejection_atomic 9
      ⟨1, false, [⟨some 4, false, none, 3, 7⟩], PORT_WAITING_INPUT,
        PORT_WAITING_OUTPUT_CLEAR⟩).2 (by decide) rfl

/-! ### Control signaling: modem-state notifications

The data layout comes from src/port.h: each slot (`net_info`) carries only
the negotiated masks `linestate_mask`, `modemstate_mask` and the booleans
`modemstate_sent`, `linestate_sent` (lines 111-114); the last-sent values
`last_modemstate`, `last_linestate` are fields of `port_info`
(lines 287-289), one copy per port shared by all slots.  The emission
loop itself (dataxfer.c) is not in the sources and is modelled from the
spec's words over this header layout; line state is handled identically
to modem state, so only the modem-state half is modelled. -/

/-- A connection slot's RFC 2217 signaling fields, from `net_info`. -/
structure SigConn where
  net : Option Nat
  modemstate_mask : Nat
  modemstate_sent : Bool
  deriving DecidableEq

/-- A port's signaling state: the connection slots and the single
per-port `last_modemstate` field of port.h lines 287-289. -/
structure SigPort where
  netcons : List SigConn
  last_modemstate : Nat
  deriving DecidableEq

/-- Modelled from the spec: a signal is emitted to a slot when the slot
is connected and its negotiated mask enables a difference between the new
state and the last-sent value the port stores. -/
def emitsTo (last new : Nat) (c : SigConn) : Bool :=
  c.net.isSome && decide (new &&& c.modemstate_mask ≠ last &&& c.modemstate_mask)

/-- The emitted signals, as (slot index, masked value) pairs, starting
from slot index `k`. -/
def modemstateEmits (last new : Nat) : Nat → List SigConn → List (Nat × Nat)
  | _, [] => []
  | k, c :: rest =>
    if emitsTo last new c then
      (k, new &&& c.modemstate_mask) :: modemstateEmits last new (k + 1) rest
    else modemstateEmits last new (k + 1) rest

/-- Raise the `modemstate_sent` flag of a slot that receives a signal. -/
def markSent (last new : Nat) (c : SigConn) : SigConn :=
  if emitsTo last new c then { c with modemstate_sent := true } else c

/-- Modelled from the spec: delivery of a device modem-state change
(dataxfer.c is not in the sources).  Every connected slot whose mask
enables a difference against the port's stored last value receives a
signal and has its `modemstate_sent` flag raised; the port's single
`last_modemstate` field is then updated to the new state. -/
def sendModemstate (p : SigPort) (new : Nat) : SigPort × List (Nat × Nat) :=
  (⟨p.netcons.map (markSent p.last_modemstate new), new⟩,
    modemstateEmits p.last_modemstate new 0 p.netcons)

theorem modemstateEmits_ge {last new k : Nat} {l : List SigConn}
    {e : Nat × Nat} (h : e ∈ modemstateEmits last new k l) : k ≤ e.1 := by
  induction l generalizing k with
  | nil => simp [modemstateEmits] at h
  | cons c rest ih =>
    by_cases hc : emitsTo last new c = true
    · simp only [modemstateEmits, if_pos hc, List.mem_cons] at h
      rcases h with rfl | h
      · exact Nat.le_refl _
      · exact Nat.le_of_succ_le (ih h)
    · simp only [modemstateEmits, if_neg hc] at h
      exact Nat.le_of_succ_le (ih h)

theorem modemstateEmits_mem {last new : Nat} {l : List SigConn} :
    ∀ (k i : Nat) (c : SigConn), l.get? i = some c →
      ((k + i, new &&& c.modemstate_mask) ∈ modemstateEmits last new k l ↔
        emitsTo last new c = true) := by
  induction l with
  | nil =>
    intro k i c hg
    simp at hg
  | cons c0 rest ih =>
    intro k i c hg
    cases i with
    | zero =>
      have hc0 : c = c0 := by
        simpa using hg.symm
      subst hc0
      by_cases hc : emitsTo last new c = true
      · simp only [modemstateEmits, if_pos hc]
        constructor
        · intro _
          exact hc
        · intro _
          exact List.mem_cons_self _ _
      · simp only [modemstateEmits, if_neg hc]
        constructor
        · intro hm
          have := modemstateEmits_ge hm
          omega
        · intro hcc
          exact absurd hcc hc
    | succ j =>
      have hg' : rest.get? j = some c := by
        simpa using hg
      have hidx : k + (j + 1) = (k + 1) + j := by omega
      rw [hidx]
      by_cases hc : emitsTo last new c0 = true
      · simp only [modemstateEmits, if_pos hc, List.mem_cons]
        constructor
        · intro hm
          rcases hm with he | hm
          · have : (k + 1) + j = k := congrArg Prod.fst he
            omega
          · exact (ih (k + 1) j c hg').mp hm
        · intro hcc
          exact Or.inr ((ih (k + 1) j c hg').mpr hcc)
      · simp only [modemstateEmits, if_neg hc]
        exact ih (k + 1) j c hg'

/-- C4 counterexample: with the layout of src/port.h the last-sent
modem-state value is NOT tracked per connection slot.  Concretely: a port
with two connected slots (slot 0 mask 3, slot 1 mask 1) and stored last
value 0 receives modem state 2; the event emits a signal to slot 0 only,
yet the one stored last-sent value that every slot — including slot 1 —
is compared against changes from 0 to 2, contradicting that only the
receiving slot's last-sent value is updated. -/
theorem C4_counterexample :
    ((sendModemstate ⟨[⟨some 1, 3, false⟩, ⟨some 2, 1, false⟩], 0⟩ 2).2.all
      fun e => decide (e.1 ≠ 1)) = true ∧
    (sendModemstate ⟨[⟨some 1, 3, false⟩, ⟨some 2, 1, false⟩], 0⟩ 2).2 ≠ [] ∧
    (sendModemstate ⟨[⟨some 1, 3, false⟩, ⟨some 2, 1, false⟩], 0⟩ 2).1.last_modemstate
      ≠ (⟨[⟨some 1, 3, false⟩, ⟨some 2, 1, false⟩], 0⟩ : SigPort).last_modemstate := by
  decide

/-- C4 amended: the masks are per slot but the last-sent value is per
port.  On a modem-state change the port's single `last_modemstate` field
is set to the new state, and a signal is emitted to slot `i` exactly when
that slot is connected and its own negotiated mask enables a difference
between the new state and the port's stored last-sent value. -/
theorem C4_signal_per_port (p : SigPort) (new : Nat) :
    (sendModemstate p new).1.last_modemstate = new ∧
    (∀ i c, p.netcons.get? i = some c →
      ((i, new &&& c.modemstate_mask) ∈ (sendModemstate p new).2 ↔
        (c.net.isSome = true ∧
          new &&& c.modemstate_mask ≠ p.last_modemstate &&& c.modemstate_mask))) := by
  constructor
  · rfl
  · intro i c hg
    have hmem := @modemstateEmits_mem p.last_modemstate new p.netcons 0 i c hg
    rw [Nat.zero_add] at hmem
    rw [show (sendModemstate p new).2
        = modemstateEmits p.last_modemstate new 0 p.netcons from rfl]
    rw [hmem]
    simp [emitsTo]

/-- Witness for C4's amended theorem: a one-slot port with mask 3 and
last value 0 receiving state 2 emits (0, 2). -/
theorem C4_signal_per_port_witness :
    (0, 2 &&& 3) ∈ (sendModemstate ⟨[⟨some 1, 3, false⟩], 0⟩ 2).2 :=
  ((C4_signal_per_port ⟨[⟨some 1, 3, false⟩], 0⟩ 2).2 0
    ⟨some 1, 3, false⟩ rfl).mpr (by decide)

/-! ### Inactivity timeout

Modelled from the spec: the per-second inactivity timer of spec
section 4.4 (reset_timer is declared port.h line 407; port.c and the
timer handler in dataxfer.c are not in the sources).  The data fields
are those of port.h: `timeout` (lines 150-152), `timeout_on_os_queue`
(line 157), the byte counters and their last-sampled values
(net_info lines 81-91), `timeout_left` and `timeout_running`
(net_info lines 99-103). -/

/-- The inactivity-timeout state of a port with one connection: the
configured `timeout` in seconds, the remaining countdown `timeout_left`,
whether the timer runs, the byte counter for both directions with its
last sample, the OS transmit queue length with its last sample, the
`timeout_on_os_queue` flag, and how many times the timeout has shut the
port down. -/
structure TimeoutPort where
  timeout : Nat
  timeout_left : Nat
  timeout_running : Bool
  bytes : Nat
  last_bytes : Nat
  send_queue_len : Nat
  last_send_queue_len : Nat
  timeout_on_os_queue : Bool
  shutdownCount : Nat
  deriving DecidableEq

/-- Timeout events: bytes moving in either direction, a change of the OS
transmit queue length, or a one-second timer tick. -/
inductive TimeoutEvent where
  | moveBytes (k : Nat)
  | queueLen (q : Nat)
  | tick
  deriving DecidableEq

/-- Activity since the last sample: the byte counters differ, or — when
the OS queue is taken into account — the queue length differs. -/
def activitySeen (s : TimeoutPort) : Bool :=
  decide (s.bytes ≠ s.last_bytes) ||
    (s.timeout_on_os_queue &&
      decide (s.send_queue_len ≠ s.last_send_queue_len))

/-- Modelled from the spec: one inactivity-timeout step (spec
section 4.4).  On a tick with activity the countdown is reset to the
full `timeout` and the samples are refreshed; with no activity the
countdown decrements, and when it runs out the port is shut down and the
timer stops, so a second shutdown cannot occur. -/
def timeoutStep (s : TimeoutPort) (e : TimeoutEvent) : TimeoutPort :=
  match e with
  | TimeoutEvent.moveBytes k => { s with bytes := s.bytes + k }
  | TimeoutEvent.queueLen q => { s with send_queue_len := q }
  | TimeoutEvent.tick =>
    if s.timeout_running = true then
      if activitySeen s then
        { s with timeout_left := s.timeout
                 last_bytes := s.bytes
                 last_send_queue_len := s.send_queue_len }
      else if s.timeout_left ≤ 1 then
        { s with timeout_running := false
                 timeout_left := 0
                 shutdownCount := s.shutdownCount + 1 }
      else { s with timeout_left := s.timeout_left - 1 }
    else s

/-- Run the timeout machine over a list of events. -/
def timeoutRun (s : TimeoutPort) (es : List TimeoutEvent) : TimeoutPort :=
  es.foldl timeoutStep s

/-- Consecutive idle ticks (no interleaved activity events). -/
def runTicks : Nat → TimeoutPort → TimeoutPort
  | 0, s => s
  | m + 1, s => runTicks m (timeoutStep s TimeoutEvent.tick)

/-- The initial timeout state for a port configured with `timeout = T`. -/
def timeoutInit (T : Nat) (osq : Bool) : TimeoutPort :=
  { timeout := T
    timeout_left := T
    timeout_running := true
    bytes := 0
    last_bytes := 0
    send_queue_len := 0
    last_send_queue_len := 0
    timeout_on_os_queue := osq
    shutdownCount := 0 }

/-- The timeout invariant: the port has been shut down at most once, and
not at all while the timer still runs. -/
def timeoutInv (s : TimeoutPort) : Prop :=
  s.shutdownCount ≤ 1 ∧ (s.timeout_running = true → s.shutdownCount = 0)

theorem timeoutInv_step (s : TimeoutPort) (e : TimeoutEvent)
    (h : timeoutInv s) : timeoutInv (timeoutStep s e) := by
  obtain ⟨h1, h2⟩ := h
  cases e with
  | moveBytes k => exact ⟨h1, h2⟩
  | queueLen q => exact ⟨h1, h2⟩
  | tick =>
    by_cases hr : s.timeout_running = true
    · simp only [timeoutStep, if_pos hr]
      by_cases ha : activitySeen s = true
      · simp only [ha, if_pos rfl]
        exact ⟨h1, h2⟩
      · rw [if_neg ha]
        by_cases hl : s.timeout_left ≤ 1
        · rw [if_pos hl]
          refine ⟨?_, ?_⟩
          · show s.shutdownCount + 1 ≤ 1
            have := h2 hr
            omega
          · intro hc
            exact absurd (show false = true from hc) (by decide)
        · rw [if_neg hl]
          exact ⟨h1, h2⟩
    · simp only [timeoutStep, if_neg hr]
      exact ⟨h1, h2⟩

theorem timeoutInv_run (s : TimeoutPort) (es : List TimeoutEvent)
    (h : timeoutInv s) : timeoutInv (timeoutRun s es) := by
  induction es generalizing s with
  | nil => exact h
  | cons e rest ih => exact ih _ (timeoutInv_step s e h)

/-- From a running state with no activity observed, the countdown of
`timeout_left` consecutive idle ticks shuts the port down exactly one
more time and stops the timer. -/
theorem runTicks_fires (n : Nat) : ∀ (s : TimeoutPort),
    s.timeout_left = n → s.timeout_running = true →
    activitySeen s = false → 0 < n →
    (runTicks n s).shutdownCount = s.shutdownCount + 1 ∧
    (runTicks n s).timeout_running = false := by
  induction n with
  | zero =>
    intro s _ _ _ hpos
    omega
  | succ m ih =>
    intro s hn hr ha hpos
    have ha' : ¬(activitySeen s = true) := by simp [ha]
    cases m with
    | zero =>
      have hl : s.timeout_left ≤ 1 := by omega
      have hstep : timeoutStep s TimeoutEvent.tick
          = { s with timeout_running := false
                     timeout_left := 0
                     shutdownCount := s.shutdownCount + 1 } := by
        simp only [timeoutStep, if_pos hr]
        rw [if_neg ha', if_pos hl]
      show (runTicks 0 (timeoutStep s TimeoutEvent.tick)).shutdownCount
          = s.shutdownCount + 1 ∧
        (runTicks 0 (timeoutStep s TimeoutEvent.tick)).timeout_running = false
      rw [hstep]
      exact ⟨rfl, rfl⟩
    | succ m' =>
      have hl : ¬s.timeout_left ≤ 1 := by omega
      have hstep : timeoutStep s TimeoutEvent.tick
          = { s with timeout_left := s.timeout_left - 1 } := by
        simp only [timeoutStep, if_pos hr]
        rw [if_neg ha', if_neg hl]
      show (runTicks (m' + 1) (timeoutStep s TimeoutEvent.tick)).shutdownCount
          = s.shutdownCount + 1 ∧
        (runTicks (m' + 1) (timeoutStep s TimeoutEvent.tick)).timeout_running
          = false
      rw [hstep]
      exact ih { s with timeout_left := s.timeout_left - 1 }
        (by simp only []; omega) hr ha (Nat.succ_pos m')

/-- C5: for a port with an inactivity timeout configured, from any
reachable state the port has been shut down at most once and never while
the timer still runs; a tick that observes byte movement (optionally
including the OS transmit queue length) resets the countdown to the full
`timeout` and performs no shutdown; and from a running state with no
byte movement, letting the remaining countdown elapse in idle ticks
shuts the port down exactly once and stops the timer. -/
theorem C5_inactivity_timeout (T : Nat) (osq : Bool)
    (es : List TimeoutEvent) :
    ((timeoutRun (timeoutInit T osq) es).shutdownCount ≤ 1 ∧
      ((timeoutRun (timeoutInit T osq) es).timeout_running = true →
        (timeoutRun (timeoutInit T osq) es).shutdownCount = 0)) ∧
    ((timeoutRun (timeoutInit T osq) es).timeout_running = true →
      activitySeen (timeoutRun (timeoutInit T osq) es) = true →
      (timeoutStep (timeoutRun (timeoutInit T osq) es)
          TimeoutEvent.tick).timeout_left
          = (timeoutRun (timeoutInit T osq) es).timeout ∧
        (timeoutStep (timeoutRun (timeoutInit T osq) es)
          TimeoutEvent.tick).shutdownCount
          = (timeoutRun (timeoutInit T osq) es).shutdownCount) ∧
    ((timeoutRun (timeoutInit T osq) es).timeout_running = true →
      activitySeen (timeoutRun (timeoutInit T osq) es) = false →
      0 < (timeoutRun (timeoutInit T osq) es).timeout_left →
      (runTicks (timeoutRun (timeoutInit T osq) es).timeout_left
          (timeoutRun (timeoutInit T osq) es)).shutdownCount
          = (timeoutRun (timeoutInit T osq) es).shutdownCount + 1 ∧
        (runTicks (timeoutRun (timeoutInit T osq) es).timeout_left
          (timeoutRun (timeoutInit T osq) es)).timeout_running = false) := by
  refine ⟨?_, ?_, ?_⟩
  · exact timeoutInv_run (timeoutInit T osq) es ⟨Nat.zero_le 1, fun _ => rfl⟩
  · intro hr ha
    constructor
    · simp [timeoutStep, hr, ha]
    · simp [timeoutStep, hr, ha]
  · intro hr ha hpos
    exact runTicks_fires (timeoutRun (timeoutInit T osq) es).timeout_left
      (timeoutRun (timeoutInit T osq) es) rfl hr ha hpos

/-- Witness for C5: a port with timeout 2 and no activity fires exactly
once after its two idle ticks. -/
theorem C5_inactivity_timeout_witness :
    (runTicks (timeoutRun (timeoutInit 2 false) []).timeout_left
        (timeoutRun (timeoutInit 2 false) [])).shutdownCount
      = (timeoutRun (timeoutInit 2 false) []).shutdownCount + 1 ∧
    (runTicks (timeoutRun (timeoutInit 2 false) []).timeout_left
        (timeoutRun (timeoutInit 2 false) [])).timeout_running = false :=
  (C5_inactivity_timeout 2 false []).2.2 rfl rfl (by decide)

/-! ### Char-delay output batching

Modelled from the spec: the output-batching timer of spec section 4.4
(port_send_timeout is declared port.h line 394; dataxfer.c is not in the
sources).  The data fields are port.h's `chardelay` (lines 191-195),
`chardelay_max` (lines 214-215), `send_time` (lines 216-219) and
`send_timer` (lines 163-167). -/

/-- The batching state: bytes held back, the pending timer deadline, the
`send_time` hard deadline set from chardelay_max at the first held byte,
and the network writes issued so far. -/
structure BatchState where
  pending : List Nat
  deadline : Option Nat
  send_time : Option Nat
  writes : List (List Nat)
  deriving DecidableEq

/-- The batching state before any device read. -/
def batchInit : BatchState := ⟨[], none, none, []⟩

/-- Modelled from the spec: a device read of `data` at time `t` with
char-delay enabled.  The first bytes set the hard deadline `send_time`
to `t + chardelay_max` and arm the timer for `t + chardelay`; further
bytes extend the window to `t + chardelay` but never past `send_time` —
whichever of the two trigger times comes first. -/
def batchRead (cd cdmax t : Nat) (data : List Nat) (s : BatchState) :
    BatchState :=
  if s.pending.isEmpty then
    { pending := data
      deadline := some (min (t + cd) (t + cdmax))
      send_time := some (t + cdmax)
      writes := s.writes }
  else
    { pending := s.pending ++ data
      deadline := some (min (t + cd) (s.send_time.getD (t + cd)))
      send_time := s.send_time
      writes := s.writes }

/-- Modelled from the spec: the batching timer fires, issuing one
destination write with everything accumulated. -/
def batchFire (s : BatchState) : BatchState :=
  { pending := []
    deadline := none
    send_time := none
    writes := s.writes ++ [s.pending] }

/-- Process a sequence of timed device reads with no timer fire between
them. -/
def batchReads (cd cdmax : Nat) :
    BatchState → List (Nat × List Nat) → BatchState
  | s, [] => s
  | s, (t, d) :: rest => batchReads cd cdmax (batchRead cd cdmax t d s) rest

/-- Reads arrive in time order and each lands strictly before the timer
deadline current at its arrival (the rolling window keeps being
extended), where `st` is the hard `send_time` deadline. -/
def inWindow (cd st : Nat) : Nat → List (Nat × List Nat) → Bool
  | _, [] => true
  | prev, (t, _) :: rest =>
    decide (prev ≤ t) && decide (t < min (prev + cd) st) &&
      inWindow cd st t rest

/-- The arrival time of the last read, with default `prev`. -/
def lastTime (prev : Nat) : List (Nat × List Nat) → Nat
  | [] => prev
  | (t, _) :: rest => lastTime t rest

/-- The concatenation, in arrival order, of the reads' bytes. -/
def allData : List (Nat × List Nat) → List Nat
  | [] => []
  | (_, d) :: rest => d ++ allData rest

theorem batchReads_accum (cd cdmax st : Nat) :
    ∀ (rest : List (Nat × List Nat)) (prev : Nat) (s : BatchState),
      s.pending ≠ [] →
      s.send_time = some st →
      s.deadline = some (min (prev + cd) st) →
      inWindow cd st prev rest = true →
      (batchReads cd cdmax s rest).pending = s.pending ++ allData rest ∧
      (batchReads cd cdmax s rest).send_time = some st ∧
      (batchReads cd cdmax s rest).deadline
        = some (min (lastTime prev rest + cd) st) ∧
      (batchReads cd cdmax s rest).writes = s.writes := by
  intro rest
  induction rest with
  | nil =>
    intro prev s hp hst hdl _
    exact ⟨by simp [batchReads, allData], hst,
      by simpa [batchReads, lastTime] using hdl, rfl⟩
  | cons td rest ih =>
    obtain ⟨t, d⟩ := td
    intro prev s hp hst hdl hw
    simp only [inWindow, Bool.and_eq_true, decide_eq_true_eq] at hw
    obtain ⟨⟨hle, hlt⟩, hw'⟩ := hw
    have hpe : s.pending.isEmpty = false := by
      cases hps : s.pending
      · exact absurd hps hp
      · rfl
    have hstep : batchRead cd cdmax t d s
        = { pending := s.pending ++ d
            deadline := some (min (t + cd) st)
            send_time := some st
            writes := s.writes } := by
      simp [batchRead, hpe, hst]
    have hunf : batchReads cd cdmax s ((t, d) :: rest)
        = batchReads cd cdmax (batchRead cd cdmax t d s) rest := rfl
    rw [hunf, hstep]
    have hih := ih t
      { pending := s.pending ++ d
        deadline := some (min (t + cd) st)
        send_time := some st
        writes := s.writes }
      (by simp [hp]) rfl rfl hw'
    refine ⟨?_, hih.2.1, ?_, hih.2.2.2⟩
    · rw [hih.1]
      simp [allData]
    · exact hih.2.2.1

/-- C6: with char-delay batching enabled, a sequence of device reads
each arriving within the rolling delay window accumulates with no
intermediate write; the concatenation of all the reads' bytes is held,
the armed trigger time is the earlier of the last read's window close
and the hard `send_time` deadline set by chardelay_max at the first
read, and the timer fire then issues exactly one destination write
containing the whole concatenation. -/
theorem C6_chardelay_batching (cd cdmax t1 : Nat) (d1 : List Nat)
    (rest : List (Nat × List Nat)) (hd1 : d1 ≠ [])
    (hw : inWindow cd (t1 + cdmax) t1 rest = true) :
    (batchReads cd cdmax batchInit ((t1, d1) :: rest)).writes = [] ∧
    (batchReads cd cdmax batchInit ((t1, d1) :: rest)).pending
      = d1 ++ allData rest ∧
    (batchReads cd cdmax batchInit ((t1, d1) :: rest)).deadline
      = some (min (lastTime t1 rest + cd) (t1 + cdmax)) ∧
    (batchFire (batchReads cd cdmax batchInit ((t1, d1) :: rest))).writes
      = [d1 ++ allData rest] ∧
    min (lastTime t1 rest + cd) (t1 + cdmax) ≤ t1 + cdmax := by
  have hstep : batchRead cd cdmax t1 d1 batchInit
      = { pending := d1
          deadline := some (min (t1 + cd) (t1 + cdmax))
          send_time := some (t1 + cdmax)
          writes := [] } := by
    simp [batchRead, batchInit]
  have hacc := batchReads_accum cd cdmax (t1 + cdmax) rest t1
    { pending := d1
      deadline := some (min (t1 + cd) (t1 + cdmax))
      send_time := some (t1 + cdmax)
      writes := [] }
    hd1 rfl rfl hw
  have hout : batchReads cd cdmax batchInit ((t1, d1) :: rest)
      = batchReads cd cdmax (batchRead cd cdmax t1 d1 batchInit) rest := rfl
  rw [hout, hstep]
  refine ⟨hacc.2.2.2, hacc.1, hacc.2.2.1, ?_, min_le_right _ _⟩
  simp only [batchFire, hacc.2.2.2, hacc.1]
  rfl

/-- Witness for C6: three reads at times 0, 5, 10 with window 20 and
max-wait 100 accumulate into the single write [1, 2, 3]. -/
theorem C6_chardelay_batching_witness :
    (batchFire (batchReads 20 100 batchInit
        [(0, [1]), (5, [2]), (10, [3])])).writes = [[1, 2, 3]] :=
  (C6_chardelay_batching 20 100 0 [1] [(5, [2]), (10, [3])]
    (by decide) (by decide)).2.2.2.1

/-! ### Shutdown-grace escalation

Modelled from the spec and the header comment: `shutdown_timeout_count`
counts timeouts during a shutdown, and zero means the final I/O shutdown
has already been called (port.h lines 177-182); the shutdown runner is
`runshutdown` (port.h lines 184-189).  The handlers (dataxfer.c) are not
in the sources. -/

/-- The shutdown-grace state: the remaining `shutdown_timeout_count`,
whether the final I/O shutdown has run, and how many times it ran. -/
structure GracePort where
  shutdown_timeout_count : Nat
  ioDone : Bool
  ioCalls : Nat
  deriving DecidableEq

/-- Shutdown-grace events: a grace-timer tick, or the graceful close
completing normally. -/
inductive GraceEvent where
  | graceTick
  | allDone
  deriving DecidableEq

/-- Modelled from the spec: one shutdown-grace step.  A zero count means
the final I/O shutdown already ran, so nothing happens.  A tick with the
count at one escalates: the final I/O shutdown runs and the count drops
to zero; otherwise the count decrements.  Normal completion of the
graceful close also runs the final I/O shutdown and zeroes the count. -/
def graceStep (s : GracePort) (e : GraceEvent) : GracePort :=
  match e with
  | GraceEvent.graceTick =>
    if s.shutdown_timeout_count = 0 then s
    else if s.shutdown_timeout_count = 1 then
      { shutdown_timeout_count := 0, ioDone := true,
        ioCalls := s.ioCalls + 1 }
    else { s with
      shutdown_timeout_count := s.shutdown_timeout_count - 1 }
  | GraceEvent.allDone =>
    if s.shutdown_timeout_count = 0 then s
    else
      { shutdown_timeout_count := 0, ioDone := true,
        ioCalls := s.ioCalls + 1 }

/-- Run the shutdown-grace machine over a list of events. -/
def graceRun (s : GracePort) (es : List GraceEvent) : GracePort :=
  es.foldl graceStep s

/-- The state at the start of a shutdown, with `K` grace checks allowed
before escalation. -/
def graceInit (K : Nat) : GracePort := ⟨K, false, 0⟩

/-- The shutdown-grace invariant: the count is zero exactly when the
final I/O shutdown has run, and it has run at most once — exactly once
when done, not at all before. -/
def graceInv (s : GracePort) : Prop :=
  (s.shutdown_timeout_count = 0 ↔ s.ioDone = true) ∧
  (s.ioDone = true → s.ioCalls = 1) ∧
  (s.ioDone = false → s.ioCalls = 0)

theorem graceInv_step (s : GracePort) (e : GraceEvent)
    (h : graceInv s) : graceInv (graceStep s e) := by
  obtain ⟨h1, h2, h3⟩ := h
  have hdone0 : s.shutdown_timeout_count ≠ 0 → s.ioDone = false := by
    intro hc
    cases hd : s.ioDone
    · rfl
    · exact absurd (h1.mpr hd) hc
  cases e with
  | graceTick =>
    by_cases hz : s.shutdown_timeout_count = 0
    · simp only [graceStep, if_pos hz]
      exact ⟨h1, h2, h3⟩
    · by_cases ho : s.shutdown_timeout_count = 1
      · simp only [graceStep, if_neg hz, if_pos ho]
        refine ⟨by simp, ?_, ?_⟩
        · intro _
          show s.ioCalls + 1 = 1
          rw [h3 (hdone0 hz)]
        · intro hc
          exact absurd (show true = false from hc) (by decide)
      · simp only [graceStep, if_neg hz, if_neg ho]
        refine ⟨?_, h2, h3⟩
        constructor
        · intro hc
          have : s.shutdown_timeout_count - 1 = 0 := hc
          omega
        · intro hc
          rw [hdone0 hz] at hc
          exact absurd hc (by decide)
  | allDone =>
    by_cases hz : s.shutdown_timeout_count = 0
    · simp only [graceStep, if_pos hz]
      exact ⟨h1, h2, h3⟩
    · simp only [graceStep, if_neg hz]
      refine ⟨by simp, ?_, ?_⟩
      · intro _
        show s.ioCalls + 1 = 1
        rw [h3 (hdone0 hz)]
      · intro hc
        exact absurd (show true = false from hc) (by decide)

theorem graceInv_run (s : GracePort) (es : List GraceEvent)
    (h : graceInv s) : graceInv (graceRun s es) := by
  induction es generalizing s with
  | nil => exact h
  | cons e rest ih => exact ih _ (graceInv_step s e h)

/-- C10: throughout a shutdown started with a positive grace count,
`shutdown_timeout_count` is strictly positive until the final I/O
shutdown runs and is zero exactly when it has already run; the
escalation runs at most once per shutdown. -/
theorem C10_grace_escalation (K : Nat) (hK : 0 < K)
    (es : List GraceEvent) :
    ((graceRun (graceInit K) es).shutdown_timeout_count = 0 ↔
      (graceRun (graceInit K) es).ioDone = true) ∧
    ((graceRun (graceInit K) es).ioDone = false →
      0 < (graceRun (graceInit K) es).shutdown_timeout_count) ∧
    (graceRun (graceInit K) es).ioCalls ≤ 1 := by
  have hinv : graceInv (graceRun (graceInit K) es) := by
    refine graceInv_run (graceInit K) es ⟨?_, ?_, ?_⟩
    · constructor
      · intro hc
        have hc' : K = 0 := hc
        omega
      · intro hc
        exact absurd (show false = true from hc) (by decide)
    · intro hc
      exact absurd (show false = true from hc) (by decide)
    · intro _
      rfl
  obtain ⟨h1, h2, h3⟩ := hinv
  refine ⟨h1, ?_, ?_⟩
  · intro hd
    have : (graceRun (graceInit K) es).shutdown_timeout_count ≠ 0 := by
      intro hc
      rw [h1.mp hc] at hd
      exact absurd hd (by decide)
    omega
  · cases hd : (graceRun (graceInit K) es).ioDone
    · rw [h3 hd]
      omega
    · rw [h2 hd]

/-- Witness for C10: a single grace tick with count 1 escalates once. -/
theorem C10_grace_escalation_witness :
    (graceRun (graceInit 1) [GraceEvent.graceTick]).ioCalls ≤ 1 :=
  (C10_grace_escalation 1 (by decide) [GraceEvent.graceTick]).2.2

end Ser2net
